import Mathlib

/-!
Verification of the calculator arithmetic engine
(src/src/calculadora/engine.py, class CalculatorEngine).

The engine is shallowly embedded: Python Decimal values are modelled by
the type Dec below (an integer coefficient times a power of ten, which is
exactly the data of a Python Decimal, except that the signed zero of
Decimal is collapsed to the single zero of Int).  The global Decimal
context precision 28 set in the constructor is modelled by rounding the
coefficient of every arithmetic result to at most 28 significant digits
(round-half-even, as in the decimal arithmetic specification); the
quantize call of the formatter refuses results whose coefficient exceeds
28 digits, as Decimal.quantize does under that context.

Stateful methods become functions on EngineState.  ZeroDivisionError is
raised and caught entirely inside the engine and is therefore modelled
locally by the Except value of apply_op; the only exception that could
escape the public API is the ValueError of _apply_op on an invalid
operator string, so the public methods that evaluate operations return
Except PyExn EngineState, where .ok means the Python call returns
normally.  Python str.isdigit on one character is the Unicode digit
test, strictly wider than the decimal digits: see py_isdigit below.
-/

/-- A Python Decimal value: num times 10 to the exp.  num carries the sign. -/
structure Dec where
  num : Int
  exp : Int
deriving DecidableEq, Repr

/-- The decimal digit character for a digit value (values above nine do not occur). -/
def digit_char (n : Nat) : Char :=
  if n = 0 then '0' else if n = 1 then '1' else if n = 2 then '2'
  else if n = 3 then '3' else if n = 4 then '4' else if n = 5 then '5'
  else if n = 6 then '6' else if n = 7 then '7' else if n = 8 then '8' else '9'

/-- Fuel-driven most-significant-first decimal digit rendering of a Nat. -/
def natCharsAux : Nat → Nat → List Char
  | 0, _ => []
  | fuel + 1, n =>
    if n < 10 then [digit_char n]
    else natCharsAux fuel (n / 10) ++ [digit_char (n % 10)]

/-- Decimal digit characters of a Nat, most significant first (str(n) in Python). -/
def natChars (n : Nat) : List Char := natCharsAux (n + 1) n

/-- Decimal rendering of a Nat as a string. -/
def natStr (n : Nat) : String := String.mk (natChars n)

/-- Number of decimal digits of a Nat (one for zero). -/
def num_digits (n : Nat) : Nat := (natChars n).length

/-- Working precision of the engine: getcontext().prec = 28 in the constructor. -/
def PREC : Nat := 28

/-- Visual display limit: CalculatorEngine.MAX_DISPLAY_LEN. -/
def MAX_DISPLAY_LEN : Nat := 32

/-- Round a / m to the nearest integer, ties to even (m positive). -/
def round_half_even (a m : Nat) : Nat :=
  let q := a / m
  let r := a % m
  if m < 2 * r then q + 1
  else if 2 * r < m then q
  else if q % 2 = 0 then q else q + 1

/-- Rounding of an exact result to the context precision of 28 significant
digits, like the _fix step Decimal applies to every arithmetic result.
Results of 28 or fewer digits are kept exact. -/
def ctx_fix (d : Dec) : Dec :=
  let a := d.num.natAbs
  if num_digits a ≤ PREC then d
  else
    let k := num_digits a - PREC
    let q0 := round_half_even a (10 ^ k)
    let q := if PREC < num_digits q0 then q0 / 10 else q0
    let k2 := if PREC < num_digits q0 then k + 1 else k
    ⟨if d.num < 0 then -(q : Int) else (q : Int), d.exp + k2⟩

/-- Decimal addition: align exponents, add exactly, round to context precision. -/
def dec_add (x y : Dec) : Dec :=
  let e := min x.exp y.exp
  ctx_fix ⟨x.num * 10 ^ (x.exp - e).toNat + y.num * 10 ^ (y.exp - e).toNat, e⟩

/-- Decimal subtraction. -/
def dec_sub (x y : Dec) : Dec := dec_add x ⟨-y.num, y.exp⟩

/-- Decimal multiplication. -/
def dec_mul (x y : Dec) : Dec := ctx_fix ⟨x.num * y.num, x.exp + y.exp⟩

/-- Remove trailing zeros of an exact quotient while above the ideal exponent,
as Decimal division does for exact results. -/
def strip_zeros_to_ideal : Nat → Nat → Int → Int → Nat × Int
  | 0, q, e, _ => (q, e)
  | fuel + 1, q, e, ideal =>
    if e < ideal ∧ q % 10 = 0 then strip_zeros_to_ideal fuel (q / 10) (e + 1) ideal
    else (q, e)

/-- Decimal division at precision 28 (the divisor is nonzero at every call
site).  Follows the coefficient-division algorithm of the decimal
specification: compute a quotient with one guard digit beyond the
precision, adjust an inexact quotient away from multiples of five so the
final context rounding is correct, and reduce an exact quotient toward
the ideal exponent. -/
def dec_div (x y : Dec) : Dec :=
  let c1 := x.num.natAbs
  let c2 := y.num.natAbs
  if c1 = 0 then ⟨0, x.exp - y.exp⟩
  else
    let shift : Int := (num_digits c2 : Int) - (num_digits c1 : Int) + PREC + 1
    let q0 :=
      if 0 ≤ shift then (c1 * 10 ^ shift.toNat) / c2
      else c1 / (c2 * 10 ^ (-shift).toNat)
    let r :=
      if 0 ≤ shift then (c1 * 10 ^ shift.toNat) % c2
      else c1 % (c2 * 10 ^ (-shift).toNat)
    let e0 := x.exp - y.exp - shift
    let qe :=
      if r = 0 then strip_zeros_to_ideal (num_digits q0) q0 e0 (x.exp - y.exp)
      else (if q0 % 5 = 0 then q0 + 1 else q0, e0)
    ctx_fix ⟨if x.num * y.num < 0 then -(qe.1 : Int) else (qe.1 : Int), qe.2⟩

/-- Errors of CalculatorEngine._apply_op: ZeroDivisionError on a zero right
operand of division, ValueError on an operator outside the four accepted
spellings (plus their display glyphs). -/
inductive ApplyErr where
  | zeroDiv
  | invalidOp
deriving DecidableEq, Repr

/-- CalculatorEngine._apply_op. -/
def apply_op (a : Dec) (op : String) (b : Dec) : Except ApplyErr Dec :=
  if op = "+" then .ok (dec_add a b)
  else if op = "-" then .ok (dec_sub a b)
  else if op = "*" ∨ op = "×" then .ok (dec_mul a b)
  else if op = "/" ∨ op = "÷" then
    if b.num = 0 then .error .zeroDiv else .ok (dec_div a b)
  else .error .invalidOp

/-- Numeric value of a list of decimal digit characters. -/
def digits_val (l : List Char) : Nat :=
  l.foldl (fun a c => a * 10 + (c.toNat - 48)) 0

/-- Python str.strip(): remove surrounding whitespace. -/
def strip_ws (s : String) : String :=
  String.mk (((s.data.dropWhile Char.isWhitespace).reverse.dropWhile Char.isWhitespace).reverse)

/-- Decimal(t) for the well-formed numeric strings the display holds:
an optional minus sign, integer digits, optionally a dot and fraction
digits.  The exponent is minus the number of fraction digits, exactly as
in the Python Decimal constructor. -/
def parse_dec (t : String) : Dec :=
  let sgn : Int := if t.data.head? = some '-' then -1 else 1
  let u := if t.data.head? = some '-' then t.data.tail else t.data
  let ip := u.takeWhile (fun c => ¬(c = '.'))
  let rest := u.dropWhile (fun c => ¬(c = '.'))
  match rest with
  | [] => ⟨sgn * digits_val ip, 0⟩
  | _ :: fp => ⟨sgn * (digits_val ip * 10 ^ fp.length + digits_val fp), -(fp.length : Int)⟩

/-- CalculatorEngine._to_decimal. -/
def to_decimal (text : String) : Dec :=
  let t0 := strip_ws text
  let t := String.mk (t0.data.map (fun c => if c = ',' then '.' else c))
  if t = "" ∨ t = "-" ∨ t = "." ∨ t = "-." then ⟨0, 0⟩
  else
    let t2 := if t.data.getLast? = some '.' then String.mk t.data.dropLast else t
    if t2 = "" ∨ t2 = "-" then ⟨0, 0⟩
    else parse_dec t2

/-- CalculatorEngine._op_for_display. -/
def op_for_display (op : String) : String :=
  if op = "+" then "+" else if op = "-" then "−"
  else if op = "*" then "×" else if op = "/" then "÷" else op

/-- Python "." in s, on the character data of the string. -/
def has_dot (s : String) : Bool := s.data.any (fun c => c = '.')

/-- Python s.rstrip(c): remove every trailing occurrence of the character c. -/
def rstrip (s : String) (c : Char) : String :=
  String.mk ((s.data.reverse.dropWhile (fun x => x = c)).reverse)

/-- The trailing-zero cleanup of the formatter:
if "." in s then s.rstrip("0").rstrip(".") else s. -/
def strip_frac (s : String) : String :=
  if has_dot s then rstrip (rstrip s '0') '.' else s

/-- Python abs_fixed.split(".", 1)[0]. -/
def int_part_of (s : String) : String :=
  String.mk (s.data.takeWhile (fun c => ¬(c = '.')))

/-- A run of zero characters. -/
def zero_pad (k : Nat) : String := String.mk (List.replicate k '0')

/-- format(value, "f"): plain fixed-point rendering.  A negative exponent
prints exactly that many fraction digits (left padded with zeros); a
nonnegative exponent prints the coefficient scaled out to an integer. -/
def format_fixed (v : Dec) : String :=
  let sgn := if v.num < 0 then "-" else ""
  let a := v.num.natAbs
  if 0 ≤ v.exp then sgn ++ natStr (a * 10 ^ v.exp.toNat)
  else
    let k := (-v.exp).toNat
    sgn ++ natStr (a / 10 ^ k) ++ "." ++
      zero_pad (k - num_digits (a % 10 ^ k)) ++ natStr (a % 10 ^ k)

/-- The sign string the formatter loop computes for the current value. -/
def sign_str (v : Dec) : String := if v.num < 0 then "-" else ""

/-- abs(value) of the formatter loop. -/
def abs_dec (v : Dec) : Dec := ⟨(v.num.natAbs : Int), v.exp⟩

/-- The integer-part string of the formatter loop:
format(abs(value), "f").split(".", 1)[0]. -/
def int_part_str (v : Dec) : String := int_part_of (format_fixed (abs_dec v))

/-- The display token of the overflow error state. -/
def OVERFLOW_MSG : String := "Overflow"

/-- value.quantize(Decimal(1).scaleb(-af), rounding=ROUND_HALF_UP) under the
context precision 28: none models the InvalidOperation raised when the
coefficient of the rounded result would exceed 28 digits. -/
def quantize_hu (v : Dec) (af : Nat) : Option Dec :=
  let q : Nat :=
    if 0 ≤ v.exp + (af : Int) then v.num.natAbs * 10 ^ (v.exp + (af : Int)).toNat
    else
      let m := 10 ^ (-(v.exp + (af : Int))).toNat
      (v.num.natAbs + m / 2) / m
  if PREC < num_digits q then none
  else some ⟨if v.num < 0 then -(q : Int) else (q : Int), -(af : Int)⟩

/-- The bounded rounding loop of _format_decimal (for _ in range(6)).  The
Bool of the result records whether the formatter entered the overflow
error state (_set_error("Overflow")). -/
def fmt_loop : Nat → Dec → String × Bool
  | 0, _ => (OVERFLOW_MSG, true)
  | fuel + 1, value =>
    let sgn := sign_str value
    let abs_fixed := format_fixed (abs_dec value)
    let int_part := int_part_of abs_fixed
    if MAX_DISPLAY_LEN < sgn.length + int_part.length then (OVERFLOW_MSG, true)
    else
      let allowed : Int := (MAX_DISPLAY_LEN : Int) - sgn.length - int_part.length - 1
      if allowed ≤ 0 then (sgn ++ int_part, false)
      else
        match quantize_hu value allowed.toNat with
        | none => (OVERFLOW_MSG, true)
        | some v2 =>
          let s := strip_frac (format_fixed v2)
          if s.length ≤ MAX_DISPLAY_LEN then (s, false)
          else fmt_loop fuel v2

/-- CalculatorEngine._format_decimal.  Returns the display string together
with the overflow flag; true means the source called _set_error("Overflow")
and returned the already-updated display text. -/
def format_decimal (value : Dec) : String × Bool :=
  if value.num = 0 then ("0", false)
  else
    let s := strip_frac (format_fixed value)
    if s.length ≤ MAX_DISPLAY_LEN then (s, false)
    else if has_dot s then fmt_loop 6 value
    else (OVERFLOW_MSG, true)

/-- The shared state record of the engine (section 3 of the specification). -/
structure EngineState where
  display_text : String
  display_secondary : String
  stored_value : Option Dec
  pending_op : Option String
  reset_next_digit : Bool
  error_state : Bool
  last_op : Option String
  last_rhs : Option Dec
deriving DecidableEq, Repr

/-- CalculatorEngine.reset, also the constructor state. -/
def init_state : EngineState :=
  ⟨"0", "", none, none, false, false, none, none⟩

/-- CalculatorEngine.get_display. -/
def get_display (st : EngineState) : String := st.display_text

/-- CalculatorEngine.get_secondary. -/
def get_secondary (st : EngineState) : String := st.display_secondary

/-- CalculatorEngine._set_error.  The method overwrites every field of the
state, so its result does not depend on the previous state. -/
def set_error (msg : String) : EngineState :=
  ⟨msg, "", none, none, true, true, none, none⟩

/-- CalculatorEngine._clear_repeat_memory_if_free. -/
def clear_repeat_memory_if_free (st : EngineState) : EngineState :=
  if st.pending_op = none ∧ st.stored_value = none then
    { st with last_op := none, last_rhs := none }
  else st

/-- CalculatorEngine._start_new_entry_if_needed. -/
def start_new_entry_if_needed (st : EngineState) : EngineState :=
  if st.reset_next_digit then
    clear_repeat_memory_if_free { st with display_text := "0", reset_next_digit := false }
  else st

/-- Python str.isdigit on a single character: true for the Unicode
characters of Numeric_Type Decimal or Digit.  The full Unicode table is
not reproduced; the model covers the ASCII decimal digits together with
the non-decimal digit characters of Latin-1 and the superscript and
subscript blocks (the superscripts one, two, three at U+00B9, U+00B2,
U+00B3, superscript zero at U+2070, superscripts four to nine at
U+2074 through U+2079, and the subscript digits at U+2080 through
U+2089), and is exact on every character this development evaluates.
The essential point is that isdigit is strictly wider than the decimal
digits: the superscript two is a digit for Python. -/
def py_isdigit (c : Char) : Bool :=
  c.isDigit || c = '¹' || c = '²' || c = '³' || c = '⁰'
  || ('⁴' ≤ c && c ≤ '⁹') || ('₀' ≤ c && c ≤ '₉')

/-- The argument guard of press_digit: isinstance(d, str) and len(d) == 1
and d.isdigit(). -/
def is_digit_key (d : String) : Bool :=
  d.length = 1 && d.data.all py_isdigit

/-- CalculatorEngine.press_digit. -/
def press_digit (st : EngineState) (d : String) : EngineState :=
  if ¬ is_digit_key d = true then st
  else
    let st1 := if st.error_state then init_state else st
    let st2 := start_new_entry_if_needed st1
    if st2.display_text ≠ "0" ∧ MAX_DISPLAY_LEN ≤ st2.display_text.length then st2
    else if st2.display_text = "0" then { st2 with display_text := d }
    else if st2.display_text = "-0" then { st2 with display_text := "-" ++ d }
    else { st2 with display_text := st2.display_text ++ d }

/-- CalculatorEngine.press_decimal. -/
def press_decimal (st : EngineState) : EngineState :=
  let st1 := if st.error_state then init_state else st
  let st2 := start_new_entry_if_needed st1
  if has_dot st2.display_text then st2
  else if MAX_DISPLAY_LEN ≤ st2.display_text.length then st2
  else { st2 with display_text := st2.display_text ++ "." }

/-- CalculatorEngine.press_backspace. -/
def press_backspace (st : EngineState) : EngineState :=
  if st.error_state then st
  else
    let st1 := clear_repeat_memory_if_free st
    let st2 := start_new_entry_if_needed st1
    if st2.display_text = "0" then st2
    else
      let t1 := String.mk st2.display_text.data.dropLast
      let t2 := if t1 = "" ∨ t1 = "-" then "0" else t1
      let t3 := if t2 = "-0" then "0" else t2
      { st2 with display_text := t3 }

/-- CalculatorEngine.press_toggle_sign. -/
def press_toggle_sign (st : EngineState) : EngineState :=
  let st1 := if st.error_state then init_state else st
  let st2 := clear_repeat_memory_if_free st1
  let st3 := start_new_entry_if_needed st2
  if st3.display_text = "0" then st3
  else if st3.display_text.data.head? = some '-' then
    { st3 with display_text := String.mk st3.display_text.data.tail }
  else if MAX_DISPLAY_LEN < st3.display_text.length + 1 then st3
  else { st3 with display_text := "-" ++ st3.display_text }

/-- CalculatorEngine.press_clear. -/
def press_clear (_ : EngineState) : EngineState := init_state

/-- CalculatorEngine.press_clear_entry. -/
def press_clear_entry (st : EngineState) : EngineState :=
  if st.error_state then init_state
  else
    let st1 := clear_repeat_memory_if_free st
    { st1 with display_text := "0", reset_next_digit := false }

/-- The operator normalization at the head of press_operator: strip the
argument, reject everything outside the six accepted spellings, map the
display glyphs to the internal spellings. -/
def norm_operator (op : String) : Option String :=
  let t := strip_ws op
  if t = "+" ∨ t = "-" ∨ t = "*" ∨ t = "×" ∨ t = "/" ∨ t = "÷" then
    some (if t = "×" then "*" else if t = "÷" then "/" else t)
  else none

/-- The uncaught Python exception that a public method could raise:
the ValueError of _apply_op on an invalid stored operator string. -/
inductive PyExn where
  | valueError
deriving DecidableEq, Repr

/-- The tail of press_operator after the chaining step: adopt the current
operand when no value is stored, install the operator, rebuild the
secondary display (entering error state if formatting the stored value
overflows), and arm reset_next_digit. -/
def finish_operator (st : EngineState) (op : String) (current : Dec) : EngineState :=
  let sv := match st.stored_value with
            | some a => a
            | none => current
  let st1 := { st with stored_value := some sv, pending_op := some op }
  let f := format_decimal sv
  let sec := f.1 ++ " " ++ op_for_display op
  if f.2 then { set_error OVERFLOW_MSG with display_secondary := sec }
  else { st1 with display_secondary := sec, reset_next_digit := true }

/-- CalculatorEngine.press_operator. -/
def press_operator (st : EngineState) (op0 : String) : Except PyExn EngineState :=
  if st.error_state then .ok st
  else
    match norm_operator op0 with
    | none => .ok st
    | some op =>
      let current := to_decimal st.display_text
      match st.pending_op, st.stored_value, st.reset_next_digit with
      | some p, some a, false =>
        match apply_op a p current with
        | .error .zeroDiv => .ok (set_error "Erro")
        | .error .invalidOp => .error .valueError
        | .ok result =>
          let f := format_decimal result
          if f.2 then .ok (set_error OVERFLOW_MSG)
          else .ok (finish_operator
            { st with stored_value := some result, display_text := f.1 } op current)
      | _, _, _ => .ok (finish_operator st op current)

/-- CalculatorEngine.press_equals. -/
def press_equals (st : EngineState) : Except PyExn EngineState :=
  if st.error_state then .ok st
  else
    match st.pending_op, st.stored_value with
    | some p, some a =>
      let current0 := to_decimal st.display_text
      let current := if st.reset_next_digit then a else current0
      match apply_op a p current with
      | .error .zeroDiv => .ok (set_error "Erro")
      | .error .invalidOp => .error .valueError
      | .ok result =>
        let f := format_decimal result
        let st1 := if f.2 then set_error OVERFLOW_MSG else st
        .ok { st1 with
              display_text := f.1
              display_secondary := ""
              last_op := st1.pending_op
              last_rhs := some current
              stored_value := none
              pending_op := none
              reset_next_digit := true }
    | _, _ =>
      match st.last_op, st.last_rhs with
      | some lop, some lrhs =>
        let a := to_decimal st.display_text
        match apply_op a lop lrhs with
        | .error .zeroDiv => .ok (set_error "Erro")
        | .error .invalidOp => .error .valueError
        | .ok result =>
          let f := format_decimal result
          let st1 := if f.2 then set_error OVERFLOW_MSG else st
          .ok { st1 with
                display_text := f.1
                display_secondary := ""
                reset_next_digit := true }
      | _, _ => .ok st

/-- One key event of the public interface. -/
inductive Key where
  | digit (d : String)
  | dot
  | binop (o : String)
  | eq
  | clear
  | clearEntry
  | back
  | sign
deriving DecidableEq, Repr

/-- Dispatch one key event to the engine. -/
def press_key (st : EngineState) : Key → Except PyExn EngineState
  | .digit d => .ok (press_digit st d)
  | .dot => .ok (press_decimal st)
  | .binop o => press_operator st o
  | .eq => press_equals st
  | .clear => .ok (press_clear st)
  | .clearEntry => .ok (press_clear_entry st)
  | .back => .ok (press_backspace st)
  | .sign => .ok (press_toggle_sign st)

/-- Run a key sequence from the initial state. -/
def run_keys (ks : List Key) : Except PyExn EngineState :=
  ks.foldlM press_key init_state

/-- States reachable from the initial state by the public key presses. -/
inductive Reachable : EngineState → Prop where
  | init : Reachable init_state
  | digit (st : EngineState) (d : String) : Reachable st → Reachable (press_digit st d)
  | dot (st : EngineState) : Reachable st → Reachable (press_decimal st)
  | binop (st st2 : EngineState) (o : String) :
      Reachable st → press_operator st o = .ok st2 → Reachable st2
  | eq (st st2 : EngineState) :
      Reachable st → press_equals st = .ok st2 → Reachable st2
  | clear (st : EngineState) : Reachable st → Reachable (press_clear st)
  | clearEntry (st : EngineState) : Reachable st → Reachable (press_clear_entry st)
  | back (st : EngineState) : Reachable st → Reachable (press_backspace st)
  | sign (st : EngineState) : Reachable st → Reachable (press_toggle_sign st)

/-! ### Helper lemmas on the state helpers -/

@[simp] lemma clear_repeat_display (st : EngineState) :
    (clear_repeat_memory_if_free st).display_text = st.display_text := by
  unfold clear_repeat_memory_if_free; split <;> rfl

@[simp] lemma clear_repeat_secondary (st : EngineState) :
    (clear_repeat_memory_if_free st).display_secondary = st.display_secondary := by
  unfold clear_repeat_memory_if_free; split <;> rfl

@[simp] lemma clear_repeat_pending (st : EngineState) :
    (clear_repeat_memory_if_free st).pending_op = st.pending_op := by
  unfold clear_repeat_memory_if_free; split <;> rfl

@[simp] lemma clear_repeat_stored (st : EngineState) :
    (clear_repeat_memory_if_free st).stored_value = st.stored_value := by
  unfold clear_repeat_memory_if_free; split <;> rfl

@[simp] lemma clear_repeat_reset (st : EngineState) :
    (clear_repeat_memory_if_free st).reset_next_digit = st.reset_next_digit := by
  unfold clear_repeat_memory_if_free; split <;> rfl

@[simp] lemma clear_repeat_error (st : EngineState) :
    (clear_repeat_memory_if_free st).error_state = st.error_state := by
  unfold clear_repeat_memory_if_free; split <;> rfl

@[simp] lemma start_new_display (st : EngineState) :
    (start_new_entry_if_needed st).display_text =
      if st.reset_next_digit then "0" else st.display_text := by
  unfold start_new_entry_if_needed; split <;> simp_all

@[simp] lemma start_new_pending (st : EngineState) :
    (start_new_entry_if_needed st).pending_op = st.pending_op := by
  unfold start_new_entry_if_needed; split <;> simp

@[simp] lemma start_new_stored (st : EngineState) :
    (start_new_entry_if_needed st).stored_value = st.stored_value := by
  unfold start_new_entry_if_needed; split <;> simp

@[simp] lemma start_new_error (st : EngineState) :
    (start_new_entry_if_needed st).error_state = st.error_state := by
  unfold start_new_entry_if_needed; split <;> simp

lemma start_new_last_op_none (st : EngineState) (h : st.last_op = none) :
    (start_new_entry_if_needed st).last_op = none := by
  unfold start_new_entry_if_needed clear_repeat_memory_if_free
  split <;> (try split) <;> simp_all

lemma start_new_last_rhs_none (st : EngineState) (h : st.last_rhs = none) :
    (start_new_entry_if_needed st).last_rhs = none := by
  unfold start_new_entry_if_needed clear_repeat_memory_if_free
  split <;> (try split) <;> simp_all

/-! ### C10: invalid press_digit arguments are ignored -/

/-- C4.  In every error state: press_digit with a valid digit performs a
full reset and then applies the keystroke (the display becomes that
digit), press_toggle_sign performs a full reset (after which toggling the
fresh zero is a no-op), press_clear and press_clear_entry fully reset,
while press_backspace and press_operator leave the state unchanged. -/
theorem error_state_recovery_asymmetry (st : EngineState)
    (h : st.error_state = true) :
    (∀ d : String, is_digit_key d = true →
        press_digit st d = { init_state with display_text := d })
    ∧ press_toggle_sign st = init_state
    ∧ press_clear st = init_state
    ∧ press_clear_entry st = init_state
    ∧ press_backspace st = st
    ∧ (∀ op : String, press_operator st op = .ok st) := by
  refine ⟨fun d hd => ?_, ?_, rfl, ?_, ?_, fun op => ?_⟩
  · unfold press_digit
    rw [hd, h]
    simp [start_new_entry_if_needed, init_state]
  · unfold press_toggle_sign
    rw [h]
    simp [start_new_entry_if_needed, clear_repeat_memory_if_free, init_state]
  · unfold press_clear_entry
    rw [h]
    simp
  · unfold press_backspace
    rw [h]
    simp
  · unfold press_operator
    rw [h]
    simp

/-- Witness for C4 at the concrete error state produced by _set_error,
with digit "7" and operator "+". -/
theorem error_state_recovery_asymmetry_witness :
    press_digit (set_error "Erro") "7" = { init_state with display_text := "7" }
    ∧ press_toggle_sign (set_error "Erro") = init_state
    ∧ press_clear_entry (set_error "Erro") = init_state
    ∧ press_backspace (set_error "Erro") = set_error "Erro"
    ∧ press_operator (set_error "Erro") "+" = .ok (set_error "Erro") :=
  ⟨(error_state_recovery_asymmetry (set_error "Erro") rfl).1 "7" (by decide),
   (error_state_recovery_asymmetry (set_error "Erro") rfl).2.1,
   (error_state_recovery_asymmetry (set_error "Erro") rfl).2.2.2.1,
   (error_state_recovery_asymmetry (set_error "Erro") rfl).2.2.2.2.1,
   (error_state_recovery_asymmetry (set_error "Erro") rfl).2.2.2.2.2 "+"⟩

/-! ### C5: toggle-sign on zero -/

/-- Counterexample to C5.  The display "0." represents the numeric value
zero and is reachable (pressing the decimal point in the initial state),
yet press_toggle_sign changes it to the minus-prefixed zero entry "-0.":
the code only special-cases the literal display string "0". -/
theorem toggle_sign_zero_dot_counterexample :
    press_decimal init_state = ⟨"0.", "", none, none, false, false, none, none⟩
    ∧ to_decimal "0." = (⟨0, 0⟩ : Dec)
    ∧ (press_toggle_sign ⟨"0.", "", none, none, false, false, none, none⟩).display_text
        = "-0." := by
  refine ⟨by rfl, by rfl, by rfl⟩

/-- C5 as amended.  Toggle-sign is a no-op on the display only when the
display text is exactly the string "0" (other zero-valued entries such as
"0." receive a minus sign): for every non-error state whose displayText
is "0", press_toggle_sign leaves the displayed text "0". -/
theorem toggle_sign_noop_on_zero_display (st : EngineState)
    (herr : st.error_state = false) (hd : st.display_text = "0") :
    (press_toggle_sign st).display_text = "0" := by
  unfold press_toggle_sign
  rw [herr]
  simp only [Bool.false_eq_true, if_false]
  have h3 : (start_new_entry_if_needed (clear_repeat_memory_if_free st)).display_text = "0" := by
    rw [start_new_display, clear_repeat_display, hd]
    split <;> rfl
  rw [if_pos h3, h3]

/-- Witness for the amended C5 at the initial state. -/
theorem toggle_sign_noop_on_zero_display_witness :
    (press_toggle_sign init_state).display_text = "0" :=
  toggle_sign_noop_on_zero_display init_state rfl rfl

/-! ### C6: equals right after an operator -/

/-- C6.  When press_equals runs with a pending operation and
reset_next_digit set (no digits typed since the operator), the stored
value is used as both the left and the right operand: the recorded
last_rhs is the stored value itself and the evaluation is apply_op a p a.
In particular the key sequence 5, +, = ends with display "10". -/
theorem equals_after_operator_uses_stored :
    (∀ (st : EngineState) (p : String) (a r : Dec),
       st.error_state = false →
       st.pending_op = some p →
       st.stored_value = some a →
       st.reset_next_digit = true →
       apply_op a p a = .ok r →
       (format_decimal r).2 = false →
       press_equals st = .ok { st with
          display_text := (format_decimal r).1
          display_secondary := ""
          last_op := some p
          last_rhs := some a
          stored_value := none
          pending_op := none
          reset_next_digit := true })
    ∧ (run_keys [Key.digit "5", Key.binop "+", Key.eq]).map get_display
        = .ok "10" := by
  constructor
  · intro st p a r herr hp hs hrd happ hfmt
    obtain ⟨dt, ds, sv, po, rn, es, lo, lr⟩ := st
    simp only at herr hp hs hrd
    subst herr hp hs hrd
    unfold press_equals
    simp only [Bool.false_eq_true, if_false, if_true, happ, hfmt]
  · rfl

/-- Witness for C6 at the state reached by pressing 5 then +. -/
theorem equals_after_operator_uses_stored_witness :
    press_equals ⟨"5", "5 +", some ⟨5, 0⟩, some "+", true, false, none, none⟩
      = .ok ⟨"10", "", none, none, true, false, some "+", some ⟨5, 0⟩⟩ :=
  equals_after_operator_uses_stored.1
    ⟨"5", "5 +", some ⟨5, 0⟩, some "+", true, false, none, none⟩
    "+" ⟨5, 0⟩ ⟨10, 0⟩ rfl rfl rfl rfl rfl rfl

/-! ### C7: repeat-equals disarm -/

lemma clear_repeat_last (st : EngineState)
    (hp : st.pending_op = none) (hs : st.stored_value = none) :
    (clear_repeat_memory_if_free st).last_op = none
    ∧ (clear_repeat_memory_if_free st).last_rhs = none := by
  unfold clear_repeat_memory_if_free
  rw [if_pos ⟨hp, hs⟩]
  exact ⟨rfl, rfl⟩

lemma start_clear_last (st : EngineState)
    (hp : st.pending_op = none) (hs : st.stored_value = none) :
    (start_new_entry_if_needed (clear_repeat_memory_if_free st)).last_op = none
    ∧ (start_new_entry_if_needed (clear_repeat_memory_if_free st)).last_rhs = none := by
  obtain ⟨h1, h2⟩ := clear_repeat_last st hp hs
  exact ⟨start_new_last_op_none _ h1, start_new_last_rhs_none _ h2⟩

/-- C7.  Beginning a fresh entry while no operation is pending and no
value is stored disarms the repeat-equals memory: press_backspace,
press_toggle_sign and press_clear_entry clear last_op and last_rhs, and
press_digit does so when it starts a fresh entry (reset_next_digit set);
with the memory clear a subsequent press_equals is a no-op.  In
particular 5, +, 2, =, 1, = ends with display "1". -/
theorem repeat_equals_disarm :
    (∀ st : EngineState, st.error_state = false →
       st.pending_op = none → st.stored_value = none →
       ((press_backspace st).last_op = none ∧ (press_backspace st).last_rhs = none)
       ∧ ((press_toggle_sign st).last_op = none ∧ (press_toggle_sign st).last_rhs = none)
       ∧ ((press_clear_entry st).last_op = none ∧ (press_clear_entry st).last_rhs = none)
       ∧ (st.reset_next_digit = true → ∀ d : String, is_digit_key d = true →
            (press_digit st d).last_op = none ∧ (press_digit st d).last_rhs = none))
    ∧ (∀ st : EngineState, st.error_state = false →
         st.pending_op = none → st.last_op = none → press_equals st = .ok st)
    ∧ (run_keys [Key.digit "5", Key.binop "+", Key.digit "2", Key.eq,
                 Key.digit "1", Key.eq]).map get_display = .ok "1" := by
  refine ⟨?_, ?_, rfl⟩
  · intro st herr hp hs
    refine ⟨?_, ?_, ?_, ?_⟩
    · unfold press_backspace
      rw [herr]
      obtain ⟨h1, h2⟩ := start_clear_last st hp hs
      simp only [Bool.false_eq_true, if_false]
      split
      · exact ⟨h1, h2⟩
      · exact ⟨h1, h2⟩
    · unfold press_toggle_sign
      rw [herr]
      obtain ⟨h1, h2⟩ := start_clear_last st hp hs
      simp only [Bool.false_eq_true, if_false]
      split
      · exact ⟨h1, h2⟩
      · split
        · exact ⟨h1, h2⟩
        · split
          · exact ⟨h1, h2⟩
          · exact ⟨h1, h2⟩
    · unfold press_clear_entry
      rw [herr]
      obtain ⟨h1, h2⟩ := clear_repeat_last st hp hs
      simp only [Bool.false_eq_true, if_false]
      exact ⟨h1, h2⟩
    · intro hrn d hd
      unfold press_digit
      rw [hd, herr]
      simp only [Bool.false_eq_true, if_false, not_true, ite_false]
      have hs2 : start_new_entry_if_needed st
          = clear_repeat_memory_if_free
              { st with display_text := "0", reset_next_digit := false } := by
        unfold start_new_entry_if_needed
        rw [if_pos hrn]
      obtain ⟨h1, h2⟩ := clear_repeat_last
        { st with display_text := "0", reset_next_digit := false }
        (by simpa using hp) (by simpa using hs)
      rw [hs2]
      split
      · exact ⟨h1, h2⟩
      · split
        · exact ⟨h1, h2⟩
        · split
          · exact ⟨h1, h2⟩
          · exact ⟨h1, h2⟩
  · intro st herr hp hl
    unfold press_equals
    rw [herr, hp, hl]
    simp only [Bool.false_eq_true, if_false]

/-- Witness for C7 at the state reached by 5, +, 2, = (display "7" with
armed repeat memory and no pending operation). -/
theorem repeat_equals_disarm_witness :
    ((press_digit ⟨"7", "", none, none, true, false, some "+", some ⟨2, 0⟩⟩ "1").last_op = none
      ∧ (press_digit ⟨"7", "", none, none, true, false, some "+", some ⟨2, 0⟩⟩ "1").last_rhs = none)
    ∧ press_equals ⟨"1", "", none, none, false, false, none, none⟩
        = .ok ⟨"1", "", none, none, false, false, none, none⟩ :=
  ⟨(repeat_equals_disarm.1 ⟨"7", "", none, none, true, false, some "+", some ⟨2, 0⟩⟩
      rfl rfl rfl).2.2.2 rfl "1" (by decide),
   repeat_equals_disarm.2.1 ⟨"1", "", none, none, false, false, none, none⟩ rfl rfl rfl⟩

/-! ### C1: repeat-equals -/

/-- C1.  When press_equals runs with no pending operation but with armed
repeat memory, the engine parses the display as the left operand, applies
last_op with last_rhs as the right operand, writes the formatted result
to the display, clears the secondary text, arms reset_next_digit, and
leaves last_op and last_rhs (and the absent pending state) unchanged.  In
particular 5, +, 2, =, =, = ends with display "11". -/
theorem repeat_equals_applies_last :
    (∀ (st : EngineState) (lop : String) (lrhs r : Dec),
       st.error_state = false →
       st.pending_op = none →
       st.last_op = some lop →
       st.last_rhs = some lrhs →
       apply_op (to_decimal st.display_text) lop lrhs = .ok r →
       (format_decimal r).2 = false →
       press_equals st = .ok { st with
          display_text := (format_decimal r).1
          display_secondary := ""
          reset_next_digit := true })
    ∧ (run_keys [Key.digit "5", Key.binop "+", Key.digit "2", Key.eq,
                 Key.eq, Key.eq]).map get_display = .ok "11" := by
  constructor
  · intro st lop lrhs r herr hp hl hr happ hfmt
    obtain ⟨dt, ds, sv, po, rn, es, lo, lr⟩ := st
    simp only at herr hp hl hr
    subst herr hp hl hr
    unfold press_equals
    simp only [Bool.false_eq_true, if_false, happ, hfmt]
  · rfl

/-- Witness for C1 at the state reached by 5, +, 2, = (display "7",
repeat memory "+" and 2): one further equals yields "9" and keeps the
memory. -/
theorem repeat_equals_applies_last_witness :
    press_equals ⟨"7", "", none, none, true, false, some "+", some ⟨2, 0⟩⟩
      = .ok ⟨"9", "", none, none, true, false, some "+", some ⟨2, 0⟩⟩ :=
  repeat_equals_applies_last.1
    ⟨"7", "", none, none, true, false, some "+", some ⟨2, 0⟩⟩
    "+" ⟨2, 0⟩ ⟨9, 0⟩ rfl rfl rfl rfl rfl rfl

/-! ### C2: left-to-right chaining -/

/-- C2.  When press_operator receives a valid operator while an operation
is pending and reset_next_digit is false, it first evaluates the pending
operation with the parsed display as right operand, adopts the result as
the new stored value and as the formatted display, and only then installs
the new operator (rebuilding the secondary display and arming
reset_next_digit).  In particular 1, 0, +, 2, -, 3, = ends with display
"9". -/
theorem operator_chains_left_to_right :
    (∀ (st : EngineState) (op0 op1 p : String) (a r : Dec),
       st.error_state = false →
       norm_operator op0 = some op1 →
       st.pending_op = some p →
       st.stored_value = some a →
       st.reset_next_digit = false →
       apply_op a p (to_decimal st.display_text) = .ok r →
       (format_decimal r).2 = false →
       press_operator st op0 = .ok { st with
          display_text := (format_decimal r).1
          display_secondary := (format_decimal r).1 ++ " " ++ op_for_display op1
          stored_value := some r
          pending_op := some op1
          reset_next_digit := true })
    ∧ (run_keys [Key.digit "1", Key.digit "0", Key.binop "+", Key.digit "2",
                 Key.binop "-", Key.digit "3", Key.eq]).map get_display
        = .ok "9" := by
  constructor
  · intro st op0 op1 p a r herr hnorm hp hs hrd happ hfmt
    obtain ⟨dt, ds, sv, po, rn, es, lo, lr⟩ := st
    simp only at herr hp hs hrd
    subst herr hp hs hrd
    unfold press_operator
    rw [hnorm]
    simp only [Bool.false_eq_true, if_false, happ, hfmt]
    unfold finish_operator
    simp [hfmt]
  · rfl

/-- Witness for C2 at the state reached by 1, 0, +, 2: pressing the
operator minus first evaluates 10 + 2 and then installs the minus. -/
theorem operator_chains_left_to_right_witness :
    press_operator ⟨"2", "10 +", some ⟨10, 0⟩, some "+", false, false, none, none⟩ "-"
      = .ok ⟨"12", "12 −", some ⟨12, 0⟩, some "-", true, false, none, none⟩ :=
  operator_chains_left_to_right.1
    ⟨"2", "10 +", some ⟨10, 0⟩, some "+", false, false, none, none⟩
    "-" "-" "+" ⟨10, 0⟩ ⟨12, 0⟩ rfl rfl rfl rfl rfl rfl rfl

/-! ### C3: division by zero never escapes -/

/-- C3.  Whenever press_operator or press_equals evaluates a division
whose right operand is zero, the call returns normally (Except.ok, no
exception crosses the public API) and the resulting state is the error
state: display holds the error token "Erro", the secondary text is empty,
and stored value, pending operation and the repeat memory are all absent.
The three evaluation sites are covered: chaining in press_operator, the
pending operation in press_equals (right operand the parsed display, or
the stored value when reset_next_digit is set), and repeat-equals. -/
theorem division_by_zero_enters_error_state :
    (∀ (st : EngineState) (op0 op1 : String) (a : Dec),
       st.error_state = false →
       norm_operator op0 = some op1 →
       st.pending_op = some "/" →
       st.stored_value = some a →
       st.reset_next_digit = false →
       (to_decimal st.display_text).num = 0 →
       press_operator st op0 = .ok ⟨"Erro", "", none, none, true, true, none, none⟩)
    ∧ (∀ (st : EngineState) (a : Dec),
       st.error_state = false →
       st.pending_op = some "/" →
       st.stored_value = some a →
       (if st.reset_next_digit then a else to_decimal st.display_text).num = 0 →
       press_equals st = .ok ⟨"Erro", "", none, none, true, true, none, none⟩)
    ∧ (∀ (st : EngineState) (z : Dec),
       st.error_state = false →
       st.pending_op = none →
       st.last_op = some "/" →
       st.last_rhs = some z →
       z.num = 0 →
       press_equals st = .ok ⟨"Erro", "", none, none, true, true, none, none⟩) := by
  refine ⟨?_, ?_, ?_⟩
  · intro st op0 op1 a herr hnorm hp hs hrd hz
    obtain ⟨dt, ds, sv, po, rn, es, lo, lr⟩ := st
    simp only at herr hp hs hrd hz
    subst herr hp hs hrd
    unfold press_operator
    rw [hnorm]
    simp only [Bool.false_eq_true, if_false]
    have : apply_op a "/" (to_decimal dt) = .error .zeroDiv := by
      unfold apply_op
      rw [if_pos hz]
      rfl
    rw [this]
    rfl
  · intro st a herr hp hs hz
    obtain ⟨dt, ds, sv, po, rn, es, lo, lr⟩ := st
    simp only at herr hp hs hz
    subst herr hp hs
    unfold press_equals
    simp only [Bool.false_eq_true, if_false]
    have : apply_op a "/" (if rn = true then a else to_decimal dt) = .error .zeroDiv := by
      unfold apply_op
      rw [if_pos hz]
      rfl
    rw [this]
    rfl
  · intro st z herr hp hl hr hz
    obtain ⟨dt, ds, sv, po, rn, es, lo, lr⟩ := st
    simp only at herr hp hl hr hz
    subst herr hp hl hr
    unfold press_equals
    simp only [Bool.false_eq_true, if_false]
    have : apply_op (to_decimal dt) "/" z = .error .zeroDiv := by
      unfold apply_op
      rw [if_pos hz]
      rfl
    rw [this]
    rfl

/-- Witness for C3 at the state reached by 5, /, 0: pressing equals
divides 5 by zero and enters the error state. -/
theorem division_by_zero_enters_error_state_witness :
    press_equals ⟨"0", "5 ÷", some ⟨5, 0⟩, some "/", false, false, none, none⟩
      = .ok ⟨"Erro", "", none, none, true, true, none, none⟩ :=
  division_by_zero_enters_error_state.2.1
    ⟨"0", "5 ÷", some ⟨5, 0⟩, some "/", false, false, none, none⟩
    ⟨5, 0⟩ rfl rfl rfl rfl

/-! ### C9: pending-iff-stored invariant -/

lemma pending_iff_stored_digit (st : EngineState) (d : String)
    (h : st.pending_op = none ↔ st.stored_value = none) :
    ((press_digit st d).pending_op = none ↔ (press_digit st d).stored_value = none) := by
  obtain ⟨dt, ds, sv, po, rn, es, lo, lr⟩ := st
  simp only at h
  unfold press_digit start_new_entry_if_needed clear_repeat_memory_if_free
  cases es <;> cases rn <;>
    simp only [apply_ite EngineState.pending_op, apply_ite EngineState.stored_value,
      apply_ite EngineState.display_text, apply_ite String.length, ite_self] <;>
    (try split_ifs) <;> simp_all [init_state]

lemma pending_iff_stored_decimal (st : EngineState)
    (h : st.pending_op = none ↔ st.stored_value = none) :
    ((press_decimal st).pending_op = none ↔ (press_decimal st).stored_value = none) := by
  obtain ⟨dt, ds, sv, po, rn, es, lo, lr⟩ := st
  simp only at h
  unfold press_decimal start_new_entry_if_needed clear_repeat_memory_if_free
  cases es <;> cases rn <;>
    simp only [apply_ite EngineState.pending_op, apply_ite EngineState.stored_value,
      apply_ite EngineState.display_text, apply_ite String.length, ite_self] <;>
    (try split_ifs) <;> simp_all [init_state]

lemma pending_iff_stored_backspace (st : EngineState)
    (h : st.pending_op = none ↔ st.stored_value = none) :
    ((press_backspace st).pending_op = none ↔ (press_backspace st).stored_value = none) := by
  obtain ⟨dt, ds, sv, po, rn, es, lo, lr⟩ := st
  simp only at h
  unfold press_backspace start_new_entry_if_needed clear_repeat_memory_if_free
  cases es <;> cases rn <;>
    simp only [apply_ite EngineState.pending_op, apply_ite EngineState.stored_value,
      apply_ite EngineState.display_text, apply_ite String.length, ite_self] <;>
    (try split_ifs) <;> simp_all [init_state]

lemma pending_iff_stored_toggle (st : EngineState)
    (h : st.pending_op = none ↔ st.stored_value = none) :
    ((press_toggle_sign st).pending_op = none
      ↔ (press_toggle_sign st).stored_value = none) := by
  obtain ⟨dt, ds, sv, po, rn, es, lo, lr⟩ := st
  simp only at h
  unfold press_toggle_sign start_new_entry_if_needed clear_repeat_memory_if_free
  cases es <;> cases rn <;>
    simp only [apply_ite EngineState.pending_op, apply_ite EngineState.stored_value,
      apply_ite EngineState.display_text, apply_ite String.length, ite_self] <;>
    (try split_ifs) <;> simp_all [init_state]

lemma pending_iff_stored_clear_entry (st : EngineState)
    (h : st.pending_op = none ↔ st.stored_value = none) :
    ((press_clear_entry st).pending_op = none
      ↔ (press_clear_entry st).stored_value = none) := by
  obtain ⟨dt, ds, sv, po, rn, es, lo, lr⟩ := st
  simp only at h
  unfold press_clear_entry clear_repeat_memory_if_free
  cases es <;>
    simp only [apply_ite EngineState.pending_op, apply_ite EngineState.stored_value,
      apply_ite EngineState.display_text, ite_self] <;>
    (try split_ifs) <;> simp_all [init_state]

lemma pending_iff_stored_finish (st : EngineState) (op : String) (cur : Dec) :
    ((finish_operator st op cur).pending_op = none
      ↔ (finish_operator st op cur).stored_value = none) := by
  unfold finish_operator
  split <;> simp only [] <;> split_ifs <;> simp [set_error]

lemma pending_iff_stored_operator (st st2 : EngineState) (o : String)
    (heq : press_operator st o = .ok st2)
    (h : st.pending_op = none ↔ st.stored_value = none) :
    (st2.pending_op = none ↔ st2.stored_value = none) := by
  obtain ⟨dt, ds, sv, po, rn, es, lo, lr⟩ := st
  simp only at h
  unfold press_operator at heq
  cases es with
  | true => cases heq; simpa using h
  | false =>
    cases hno : norm_operator o with
    | none => rw [hno] at heq; cases heq; simpa using h
    | some op1 =>
      rw [hno] at heq
      cases po with
      | none => cases heq; exact pending_iff_stored_finish _ _ _
      | some p =>
        cases sv with
        | none => cases heq; exact pending_iff_stored_finish _ _ _
        | some a =>
          cases rn with
          | true => cases heq; exact pending_iff_stored_finish _ _ _
          | false =>
            cases hap : apply_op a p (to_decimal dt) with
            | error e =>
              simp only [hap] at heq
              cases e
              · cases heq; simp [set_error]
              · cases heq
            | ok result =>
              cases hf : (format_decimal result).2 with
              | true =>
                simp only [hap, hf, if_true] at heq
                cases heq; simp [set_error]
              | false =>
                simp only [hap, hf, Bool.false_eq_true, if_false] at heq
                cases heq; exact pending_iff_stored_finish _ _ _

lemma pending_iff_stored_equals (st st2 : EngineState)
    (heq : press_equals st = .ok st2)
    (h : st.pending_op = none ↔ st.stored_value = none) :
    (st2.pending_op = none ↔ st2.stored_value = none) := by
  obtain ⟨dt, ds, sv, po, rn, es, lo, lr⟩ := st
  simp only at h
  unfold press_equals at heq
  cases es with
  | true => cases heq; simpa using h
  | false =>
    cases po with
    | some p =>
      cases sv with
      | some a =>
        cases hap : apply_op a p (if rn = true then a else to_decimal dt) with
        | error e =>
          simp only [hap] at heq
          cases e
          · cases heq; simp [set_error]
          · cases heq
        | ok result =>
          cases hf : (format_decimal result).2 with
          | true =>
            simp only [hap, hf, if_true] at heq
            cases heq; simp
          | false =>
            simp only [hap, hf, Bool.false_eq_true, if_false] at heq
            cases heq; simp
      | none =>
        cases lo with
        | none => cases heq; simpa using h
        | some lop =>
          cases lr with
          | none => cases heq; simpa using h
          | some lrhs =>
            cases hap : apply_op (to_decimal dt) lop lrhs with
            | error e =>
              simp only [hap] at heq
              cases e
              · cases heq; simp [set_error]
              · cases heq
            | ok result =>
              cases hf : (format_decimal result).2 with
              | true =>
                simp only [hap, hf, if_true] at heq
                cases heq; simp [set_error]
              | false =>
                simp only [hap, hf, Bool.false_eq_true, if_false] at heq
                cases heq; simp_all
    | none =>
      cases lo with
      | none => cases heq; simpa using h
      | some lop =>
        cases lr with
        | none => cases heq; simpa using h
        | some lrhs =>
          cases hap : apply_op (to_decimal dt) lop lrhs with
          | error e =>
            simp only [hap] at heq
            cases e
            · cases heq; simp [set_error]
            · cases heq
          | ok result =>
            cases hf : (format_decimal result).2 with
            | true =>
              simp only [hap, hf, if_true] at heq
              cases heq; simp [set_error]
            | false =>
              simp only [hap, hf, Bool.false_eq_true, if_false] at heq
              cases heq; simp_all

/-- C9.  In every state reachable from the initial state by the public
key presses, a pending operation is present exactly when a stored value
is present (both-or-neither). -/
theorem pending_iff_stored_invariant (st : EngineState) (h : Reachable st) :
    (st.pending_op = none ↔ st.stored_value = none) := by
  induction h with
  | init => simp [init_state]
  | digit st d _ ih => exact pending_iff_stored_digit st d ih
  | dot st _ ih => exact pending_iff_stored_decimal st ih
  | binop st st2 o _ heq ih => exact pending_iff_stored_operator st st2 o heq ih
  | eq st st2 _ heq ih => exact pending_iff_stored_equals st st2 heq ih
  | clear st _ _ => simp [press_clear, init_state]
  | clearEntry st _ ih => exact pending_iff_stored_clear_entry st ih
  | back st _ ih => exact pending_iff_stored_backspace st ih
  | sign st _ ih => exact pending_iff_stored_toggle st ih

/-- Witness for C9 at the initial state. -/
theorem pending_iff_stored_invariant_witness :
    init_state.pending_op = none ↔ init_state.stored_value = none :=
  pending_iff_stored_invariant init_state Reachable.init

/-! ### C8: formatter overflow law.  Groundwork on digit strings. -/

lemma natCharsAux_congr : ∀ f1 n, n < f1 → ∀ f2, n < f2 → natCharsAux f1 n = natCharsAux f2 n := by
  intro f1
  induction f1 with
  | zero => intro n h; omega
  | succ f ih =>
    intro n hn f2 hn2
    cases f2 with
    | zero => omega
    | succ g =>
      simp only [natCharsAux]
      by_cases h10 : n < 10
      · simp [h10]
      · simp only [h10, if_false]
        have hdiv : n / 10 < n := Nat.div_lt_self (by omega) (by omega)
        rw [ih (n / 10) (by omega) g (by omega)]

lemma natChars_eq (n : Nat) :
    natChars n = if n < 10 then [digit_char n]
                 else natChars (n / 10) ++ [digit_char (n % 10)] := by
  unfold natChars
  conv_lhs => simp only [natCharsAux]
  split
  · rfl
  · have hdiv : n / 10 < n := Nat.div_lt_self (by omega) (by omega)
    rw [natCharsAux_congr n (n / 10) (by omega) (n / 10 + 1) (by omega)]

lemma natChars_ne_nil (n : Nat) : natChars n ≠ [] := by
  rw [natChars_eq]; split <;> simp

lemma num_digits_pos (n : Nat) : 0 < num_digits n :=
  List.length_pos.mpr (natChars_ne_nil n)

lemma digit_char_ne_dot (n : Nat) : digit_char n ≠ '.' := by
  unfold digit_char
  repeat' split
  all_goals decide

lemma digit_char_ne_zero (n : Nat) (h : n ≠ 0) : digit_char n ≠ '0' := by
  unfold digit_char
  rw [if_neg h]
  repeat' split
  all_goals decide

lemma mem_natChars_ne_dot (n : Nat) : ∀ c ∈ natChars n, c ≠ '.' := by
  induction n using Nat.strong_induction_on with
  | _ n ih =>
    rw [natChars_eq]
    split
    · intro c hc
      simp only [List.mem_singleton] at hc
      subst hc
      exact digit_char_ne_dot _
    · intro c hc
      rw [List.mem_append] at hc
      rcases hc with hc | hc
      · exact ih (n / 10) (Nat.div_lt_self (by omega) (by omega)) c hc
      · simp only [List.mem_singleton] at hc
        subst hc
        exact digit_char_ne_dot _

lemma natChars_head_ne_zero (n : Nat) (hn : n ≠ 0) :
    ∃ c l, natChars n = c :: l ∧ c ≠ '0' := by
  induction n using Nat.strong_induction_on with
  | _ n ih =>
    rw [natChars_eq]
    split
    · exact ⟨digit_char n, [], rfl, digit_char_ne_zero n hn⟩
    · have h10 : 10 ≤ n := by omega
      obtain ⟨c, l, hcl, hc⟩ :=
        ih (n / 10) (Nat.div_lt_self (by omega) (by omega))
          (by
            have : 1 ≤ n / 10 := (Nat.one_le_div_iff (by omega)).mpr h10
            omega)
      exact ⟨c, l ++ [digit_char (n % 10)], by rw [hcl]; rfl, hc⟩

lemma num_digits_le_of_lt_pow : ∀ k n, 0 < k → n < 10 ^ k → num_digits n ≤ k := by
  intro k
  induction k with
  | zero => intro n h; omega
  | succ k ih =>
    intro n _ hlt
    by_cases h10 : n < 10
    · have h1 : num_digits n = 1 := by
        unfold num_digits
        rw [natChars_eq, if_pos h10]
        rfl
      omega
    · have hk : 0 < k := by
        rcases Nat.eq_zero_or_pos k with hk0 | hk0
        · subst hk0; simp at hlt; omega
        · exact hk0
      have hnd : num_digits n = num_digits (n / 10) + 1 := by
        unfold num_digits
        rw [natChars_eq, if_neg h10]
        simp
      have hdiv : n / 10 < 10 ^ k := by
        rw [Nat.div_lt_iff_lt_mul (by omega : (0:Nat) < 10)]
        calc n < 10 ^ (k + 1) := hlt
          _ = 10 ^ k * 10 := by ring
      have := ih (n / 10) hk hdiv
      omega

lemma lt_pow_num_digits (n : Nat) : n < 10 ^ num_digits n := by
  induction n using Nat.strong_induction_on with
  | _ n ih =>
    by_cases h10 : n < 10
    · have h1 : num_digits n = 1 := by
        unfold num_digits
        rw [natChars_eq, if_pos h10]
        rfl
      rw [h1]
      simpa using h10
    · have hnd : num_digits n = num_digits (n / 10) + 1 := by
        unfold num_digits
        rw [natChars_eq, if_neg h10]
        simp
      have hdiv := ih (n / 10) (Nat.div_lt_self (by omega) (by omega))
      rw [hnd]
      have hmod : n % 10 < 10 := Nat.mod_lt _ (by omega)
      have hsplit : n = 10 * (n / 10) + n % 10 := (Nat.div_add_mod n 10).symm
      have hpow : 10 ^ (num_digits (n / 10) + 1) = 10 ^ num_digits (n / 10) * 10 := by ring
      rw [hpow]
      omega

lemma num_digits_pow (k : Nat) : num_digits (10 ^ k) = k + 1 := by
  have h1 : num_digits (10 ^ k) ≤ k + 1 :=
    num_digits_le_of_lt_pow (k + 1) _ (by omega)
      (Nat.pow_lt_pow_right (by omega) (by omega))
  have h2 : k < num_digits (10 ^ k) := by
    by_contra h
    have hle : num_digits (10 ^ k) ≤ k := by omega
    have := lt_pow_num_digits (10 ^ k)
    have hpow : (10:Nat) ^ num_digits (10 ^ k) ≤ 10 ^ k :=
      Nat.pow_le_pow_right (by omega) hle
    omega
  omega

lemma drop_while_append_cons (p : Char → Bool) (l1 : List Char) (y : Char) (l2 : List Char)
    (hy : p y = false) :
    List.dropWhile p (l1 ++ y :: l2) = List.dropWhile p l1 ++ y :: l2 := by
  induction l1 with
  | nil => simp [List.dropWhile_cons, hy]
  | cons x xs ih =>
    simp only [List.cons_append, List.dropWhile_cons]
    split <;> simp [ih]

lemma take_while_append_cons (p : Char → Bool) (l1 : List Char) (y : Char) (l2 : List Char)
    (h1 : ∀ c ∈ l1, p c = true) (hy : p y = false) :
    List.takeWhile p (l1 ++ y :: l2) = l1 := by
  induction l1 with
  | nil => simp [List.takeWhile_cons, hy]
  | cons x xs ih =>
    simp only [List.cons_append, List.takeWhile_cons]
    rw [h1 x (by simp)]
    simp only [if_true]
    rw [ih (fun c hc => h1 c (by simp [hc]))]

lemma take_while_all (p : Char → Bool) (l : List Char) (h : ∀ c ∈ l, p c = true) :
    List.takeWhile p l = l := by
  induction l with
  | nil => rfl
  | cons x xs ih =>
    simp only [List.takeWhile_cons]
    rw [h x (by simp)]
    simp only [if_true]
    rw [ih (fun c hc => h c (by simp [hc]))]

lemma drop_while_eq_nil_of_all (p : Char → Bool) (l : List Char) (h : ∀ c ∈ l, p c = true) :
    List.dropWhile p l = [] := by
  induction l with
  | nil => rfl
  | cons x xs ih =>
    simp only [List.dropWhile_cons]
    rw [h x (by simp)]
    simp only [if_true]
    exact ih (fun c hc => h c (by simp [hc]))

lemma drop_while_length_le (p : Char → Bool) (l : List Char) :
    (List.dropWhile p l).length ≤ l.length := by
  induction l with
  | nil => simp
  | cons x xs ih =>
    simp only [List.dropWhile_cons]
    split
    · simp only [List.length_cons]; omega
    · simp

/-! ### C8 groundwork: structure of the fixed-point rendering and the strip step -/

lemma str_data_append (s t : String) : (s ++ t).data = s.data ++ t.data := rfl

lemma str_length_data (s : String) : s.length = s.data.length := rfl

lemma rstrip_data (s : String) (c : Char) :
    (rstrip s c).data = (s.data.reverse.dropWhile (fun x => x = c)).reverse := rfl

lemma sign_str_abs (v : Dec) : sign_str (abs_dec v) = "" := by
  unfold sign_str abs_dec
  rw [if_neg]
  simp

lemma abs_dec_exp (v : Dec) : (abs_dec v).exp = v.exp := rfl

lemma abs_dec_natAbs (v : Dec) : (abs_dec v).num.natAbs = v.num.natAbs := by
  unfold abs_dec
  exact Int.natAbs_ofNat _

lemma sign_str_data_ne_dot (v : Dec) : ∀ c ∈ (sign_str v).data, c ≠ '.' := by
  unfold sign_str
  split <;> intro c hc <;> simp at hc
  subst hc
  decide

lemma format_fixed_nonneg (v : Dec) (he : 0 ≤ v.exp) :
    format_fixed v = sign_str v ++ natStr (v.num.natAbs * 10 ^ v.exp.toNat) := by
  unfold format_fixed sign_str
  rw [if_pos he]

lemma format_fixed_neg (v : Dec) (he : v.exp < 0) :
    format_fixed v
      = sign_str v ++ natStr (v.num.natAbs / 10 ^ (-v.exp).toNat) ++ "."
        ++ zero_pad ((-v.exp).toNat - num_digits (v.num.natAbs % 10 ^ (-v.exp).toNat))
        ++ natStr (v.num.natAbs % 10 ^ (-v.exp).toNat) := by
  unfold format_fixed sign_str
  rw [if_neg (show ¬ 0 ≤ v.exp by omega)]

lemma dot_pred_dot : (fun c : Char => decide (¬ c = '.')) '.' = false := by decide

lemma int_part_str_nonneg (v : Dec) (he : 0 ≤ v.exp) :
    int_part_str v = natStr (v.num.natAbs * 10 ^ v.exp.toNat) := by
  unfold int_part_str int_part_of
  rw [format_fixed_nonneg (abs_dec v) he, sign_str_abs, abs_dec_natAbs, abs_dec_exp]
  have hd : (("" : String) ++ natStr (v.num.natAbs * 10 ^ v.exp.toNat)).data
      = natChars (v.num.natAbs * 10 ^ v.exp.toNat) := rfl
  rw [hd, take_while_all _ _ (by
    intro c hc
    simp only [decide_eq_true_eq]
    exact mem_natChars_ne_dot _ c hc)]
  rfl

lemma int_part_str_neg (v : Dec) (he : v.exp < 0) :
    int_part_str v = natStr (v.num.natAbs / 10 ^ (-v.exp).toNat) := by
  unfold int_part_str int_part_of
  rw [format_fixed_neg (abs_dec v) he, sign_str_abs, abs_dec_natAbs, abs_dec_exp]
  have hd : (("" : String) ++ natStr (v.num.natAbs / 10 ^ (-v.exp).toNat) ++ "."
      ++ zero_pad ((-v.exp).toNat
          - num_digits (v.num.natAbs % 10 ^ (-v.exp).toNat))
      ++ natStr (v.num.natAbs % 10 ^ (-v.exp).toNat)).data
      = natChars (v.num.natAbs / 10 ^ (-v.exp).toNat)
        ++ '.' :: (List.replicate ((-v.exp).toNat
              - num_digits (v.num.natAbs % 10 ^ (-v.exp).toNat)) '0'
            ++ natChars (v.num.natAbs % 10 ^ (-v.exp).toNat)) := by
    show ((([] ++ natChars _) ++ ['.']) ++ List.replicate _ '0') ++ natChars _ = _
    simp [List.append_assoc]
  rw [hd, take_while_append_cons _ _ _ _ (by
      intro c hc
      simp only [decide_eq_true_eq]
      exact mem_natChars_ne_dot _ c hc)
    dot_pred_dot]
  rfl

lemma has_dot_false_of_ne (s : String) (h : ∀ c ∈ s.data, c ≠ '.') : has_dot s = false := by
  unfold has_dot
  rw [List.any_eq_false]
  intro c hc
  simp only [decide_eq_true_eq]
  exact h c hc

lemma strip_frac_no_dot (s : String) (h : ∀ c ∈ s.data, c ≠ '.') : strip_frac s = s := by
  unfold strip_frac
  rw [has_dot_false_of_ne s h]
  simp

lemma strip_frac_length_le (s : String) : (strip_frac s).length ≤ s.length := by
  unfold strip_frac
  split
  · rw [str_length_data, str_length_data, rstrip_data, rstrip_data]
    have h1 := drop_while_length_le (fun x => x = '.')
      ((rstrip s '0').data.reverse)
    have h2 := drop_while_length_le (fun x => x = '0') (s.data.reverse)
    rw [rstrip_data] at h1
    simp only [List.length_reverse] at h1 h2 ⊢
    omega
  · exact le_refl _

lemma drop_while_head_false (p : Char → Bool) (l : List Char) (y : Char) (ys : List Char)
    (h : List.dropWhile p l = y :: ys) : p y = false := by
  induction l with
  | nil => simp at h
  | cons x xs ih =>
    rw [List.dropWhile_cons] at h
    split at h
    · exact ih h
    · cases h
      rename_i hpx
      simpa using hpx

lemma drop_while_mem (p : Char → Bool) (l : List Char) (y : Char)
    (h : y ∈ List.dropWhile p l) : y ∈ l := by
  induction l with
  | nil => simp at h
  | cons x xs ih =>
    rw [List.dropWhile_cons] at h
    split at h
    · exact List.mem_cons_of_mem x (ih h)
    · exact h

lemma str_eq_of_data (s : String) (l : List Char) (h : s.data = l) : s = String.mk l := by
  cases s
  cases h
  rfl

lemma strip_calc (A : List Char) (z : Char) (B : List Char)
    (hz : z ≠ '.') (hB : ∀ c ∈ B, c ≠ '.') :
    strip_frac (String.mk (A ++ z :: '.' :: B))
      = if B.reverse.dropWhile (fun x => x = '0') = []
        then String.mk (A ++ [z])
        else String.mk (A ++ z :: '.' :: (B.reverse.dropWhile (fun x => x = '0')).reverse) := by
  have hdot : has_dot (String.mk (A ++ z :: '.' :: B)) = true := by
    unfold has_dot
    rw [List.any_eq_true]
    exact ⟨'.', by simp, by simp⟩
  unfold strip_frac
  rw [hdot, if_pos rfl]
  have h1 : (rstrip (String.mk (A ++ z :: '.' :: B)) '0').data
      = A ++ z :: '.' :: (B.reverse.dropWhile (fun x => x = '0')).reverse := by
    rw [rstrip_data]
    have hrev : (String.mk (A ++ z :: '.' :: B)).data.reverse
        = B.reverse ++ '.' :: z :: A.reverse := by
      show (A ++ z :: '.' :: B).reverse = _
      simp
    rw [hrev, drop_while_append_cons _ _ _ _ (by decide)]
    simp
  by_cases hB0 : B.reverse.dropWhile (fun x => x = '0') = []
  · rw [if_pos hB0]
    apply str_eq_of_data
    rw [rstrip_data, h1, hB0]
    have hrev2 : (A ++ z :: '.' :: (([] : List Char)).reverse).reverse
        = '.' :: z :: A.reverse := by simp
    rw [hrev2, List.dropWhile_cons]
    rw [if_pos (by decide)]
    rw [List.dropWhile_cons]
    rw [if_neg (by simp [hz])]
    simp
  · rw [if_neg hB0]
    apply str_eq_of_data
    rw [rstrip_data, h1]
    obtain ⟨d, D, hdD⟩ := List.exists_cons_of_ne_nil hB0
    have hdne : d ≠ '.' := by
      apply hB
      have hmem : d ∈ B.reverse.dropWhile (fun x => x = '0') := by rw [hdD]; simp
      have := drop_while_mem _ _ _ hmem
      simpa using this
    rw [hdD]
    have hrev2 : (A ++ z :: '.' :: (d :: D).reverse).reverse
        = d :: (D ++ '.' :: z :: A.reverse) := by simp
    rw [hrev2, List.dropWhile_cons]
    rw [if_neg (by simp [hdne])]
    simp

lemma strip_format_neg (v : Dec) (he : v.exp < 0) :
    (v.num.natAbs % 10 ^ (-v.exp).toNat = 0 →
       strip_frac (format_fixed v) = sign_str v ++ int_part_str v)
    ∧ (v.num.natAbs % 10 ^ (-v.exp).toNat ≠ 0 →
       ∃ B : List Char, B ≠ [] ∧ B.length ≤ (-v.exp).toNat ∧
         (strip_frac (format_fixed v)).data
           = (sign_str v ++ int_part_str v).data ++ '.' :: B) := by
  have hk1 : 1 ≤ (-v.exp).toNat := by omega
  have hfp_lt : v.num.natAbs % 10 ^ (-v.exp).toNat < 10 ^ (-v.exp).toNat :=
    Nat.mod_lt _ (Nat.pos_pow_of_pos _ (by omega))
  have hnd_fp : num_digits (v.num.natAbs % 10 ^ (-v.exp).toNat) ≤ (-v.exp).toNat :=
    num_digits_le_of_lt_pow _ _ hk1 hfp_lt
  have hne := natChars_ne_nil (v.num.natAbs / 10 ^ (-v.exp).toNat)
  have hz : (natChars (v.num.natAbs / 10 ^ (-v.exp).toNat)).getLast hne ≠ '.' :=
    mem_natChars_ne_dot _ _ (List.getLast_mem hne)
  have hsplit : (natChars (v.num.natAbs / 10 ^ (-v.exp).toNat)).dropLast
      ++ [(natChars (v.num.natAbs / 10 ^ (-v.exp).toNat)).getLast hne]
      = natChars (v.num.natAbs / 10 ^ (-v.exp).toNat) :=
    List.dropLast_append_getLast hne
  have hBd : ∀ c ∈ List.replicate ((-v.exp).toNat
        - num_digits (v.num.natAbs % 10 ^ (-v.exp).toNat)) '0'
      ++ natChars (v.num.natAbs % 10 ^ (-v.exp).toNat), c ≠ '.' := by
    intro c hc
    rw [List.mem_append] at hc
    rcases hc with hc | hc
    · have := List.eq_of_mem_replicate hc
      subst this
      decide
    · exact mem_natChars_ne_dot _ c hc
  have hfd : format_fixed v
      = String.mk (((sign_str v).data
            ++ (natChars (v.num.natAbs / 10 ^ (-v.exp).toNat)).dropLast)
          ++ (natChars (v.num.natAbs / 10 ^ (-v.exp).toNat)).getLast hne
            :: '.' :: (List.replicate ((-v.exp).toNat
                - num_digits (v.num.natAbs % 10 ^ (-v.exp).toNat)) '0'
              ++ natChars (v.num.natAbs % 10 ^ (-v.exp).toNat))) := by
    rw [format_fixed_neg v he]
    apply str_eq_of_data
    show ((((sign_str v).data ++ natChars _) ++ ['.'])
        ++ List.replicate _ '0') ++ natChars _ = _
    conv_lhs => rw [← hsplit]
    simp
  have hipd : (sign_str v ++ int_part_str v).data
      = ((sign_str v).data
          ++ (natChars (v.num.natAbs / 10 ^ (-v.exp).toNat)).dropLast)
        ++ [(natChars (v.num.natAbs / 10 ^ (-v.exp).toNat)).getLast hne] := by
    rw [int_part_str_neg v he]
    show (sign_str v).data ++ natChars _ = _
    conv_lhs => rw [← hsplit]
    simp
  constructor
  · intro hfp0
    rw [hfd, strip_calc _ _ _ hz hBd]
    rw [if_pos (drop_while_eq_nil_of_all _ _ (by
      intro c hc
      rw [List.mem_reverse, List.mem_append] at hc
      simp only [decide_eq_true_eq]
      rcases hc with hc | hc
      · exact List.eq_of_mem_replicate hc
      · rw [hfp0] at hc
        have h0 : natChars 0 = ['0'] := by rw [natChars_eq]; rfl
        rw [h0] at hc
        simpa using hc))]
    exact (str_eq_of_data _ _ hipd).symm
  · intro hfp0
    rw [hfd, strip_calc _ _ _ hz hBd]
    have hne2 : (List.replicate ((-v.exp).toNat
          - num_digits (v.num.natAbs % 10 ^ (-v.exp).toNat)) '0'
        ++ natChars (v.num.natAbs % 10 ^ (-v.exp).toNat)).reverse.dropWhile
          (fun x => x = '0') ≠ [] := by
      intro hnil
      rw [List.dropWhile_eq_nil_iff] at hnil
      obtain ⟨c, l, hcl, hc0⟩ := natChars_head_ne_zero _ hfp0
      have hcB : c ∈ (List.replicate ((-v.exp).toNat
            - num_digits (v.num.natAbs % 10 ^ (-v.exp).toNat)) '0'
          ++ natChars (v.num.natAbs % 10 ^ (-v.exp).toNat)).reverse := by
        rw [List.mem_reverse, List.mem_append]
        right
        rw [hcl]
        simp
      have := hnil c hcB
      simp only [decide_eq_true_eq] at this
      exact hc0 this
    rw [if_neg hne2]
    refine ⟨(List.dropWhile (fun x => x = '0')
        (List.replicate ((-v.exp).toNat
            - num_digits (v.num.natAbs % 10 ^ (-v.exp).toNat)) '0'
          ++ natChars (v.num.natAbs % 10 ^ (-v.exp).toNat)).reverse).reverse, ?_, ?_, ?_⟩
    · intro hnil
      exact hne2 (List.reverse_eq_nil_iff.mp hnil)
    · have h1 := drop_while_length_le (fun x => x = '0')
        ((List.replicate ((-v.exp).toNat
            - num_digits (v.num.natAbs % 10 ^ (-v.exp).toNat)) '0'
          ++ natChars (v.num.natAbs % 10 ^ (-v.exp).toNat)).reverse)
      unfold num_digits at hnd_fp
      simp only [List.length_reverse, List.length_append, List.length_replicate,
        num_digits] at h1 ⊢
      omega
    · rw [hipd]
      simp

lemma format_fixed_neg_length (v : Dec) (he : v.exp < 0) :
    (format_fixed v).length
      = (sign_str v).length + (int_part_str v).length + 1 + (-v.exp).toNat := by
  have hk1 : 1 ≤ (-v.exp).toNat := by omega
  have hfp_lt : v.num.natAbs % 10 ^ (-v.exp).toNat < 10 ^ (-v.exp).toNat :=
    Nat.mod_lt _ (Nat.pos_pow_of_pos _ (by omega))
  have hnd_fp : num_digits (v.num.natAbs % 10 ^ (-v.exp).toNat) ≤ (-v.exp).toNat :=
    num_digits_le_of_lt_pow _ _ hk1 hfp_lt
  rw [format_fixed_neg v he, int_part_str_neg v he]
  have hdotlen : ("." : String).length = 1 := rfl
  have hzp : ∀ j : Nat, (zero_pad j).length = j := by
    intro j
    unfold zero_pad
    rw [str_length_data]
    exact List.length_replicate _ _
  have hns : ∀ n : Nat, (natStr n).length = num_digits n := fun n => rfl
  simp only [String.length_append, hdotlen, hzp, hns]
  omega

/-! ### C8 groundwork: length facts and the rounding bound -/

lemma sl_il_le_strip (v : Dec) :
    (sign_str v).length + (int_part_str v).length
      ≤ (strip_frac (format_fixed v)).length := by
  rcases lt_or_le v.exp 0 with he | he
  · by_cases hfp : v.num.natAbs % 10 ^ (-v.exp).toNat = 0
    · rw [(strip_format_neg v he).1 hfp, String.length_append]
    · obtain ⟨B, _, _, hdata⟩ := (strip_format_neg v he).2 hfp
      have h2 : (strip_frac (format_fixed v)).data.length
          = ((sign_str v ++ int_part_str v).data ++ '.' :: B).length := by rw [hdata]
      rw [List.length_append, str_data_append, List.length_append, List.length_cons] at h2
      have h3 : (strip_frac (format_fixed v)).length
          = (strip_frac (format_fixed v)).data.length := rfl
      have h4 : (sign_str v).data.length = (sign_str v).length := rfl
      have h5 : (int_part_str v).data.length = (int_part_str v).length := rfl
      omega
  · rw [format_fixed_nonneg v he, strip_frac_no_dot _ (by
      intro c hc
      rw [str_data_append] at hc
      rcases List.mem_append.mp hc with hc | hc
      · exact sign_str_data_ne_dot v c hc
      · exact mem_natChars_ne_dot _ c hc)]
    rw [String.length_append, int_part_str_nonneg v he]

lemma strip_len_nonneg (v : Dec) (he : 0 ≤ v.exp) :
    (strip_frac (format_fixed v)).length
      = (sign_str v).length + (int_part_str v).length := by
  rw [format_fixed_nonneg v he, strip_frac_no_dot _ (by
    intro c hc
    rw [str_data_append] at hc
    rcases List.mem_append.mp hc with hc | hc
    · exact sign_str_data_ne_dot v c hc
    · exact mem_natChars_ne_dot _ c hc)]
  rw [String.length_append, int_part_str_nonneg v he]

lemma sign_str_zero_num (v : Dec) (h : v.num = 0) : sign_str v = "" := by
  unfold sign_str
  rw [if_neg (by rw [h]; omega)]

lemma strip_len_zero_num (v : Dec) (h : v.num = 0) :
    (strip_frac (format_fixed v)).length ≤ 1 := by
  have habs : v.num.natAbs = 0 := by rw [h]; rfl
  rcases lt_or_le v.exp 0 with he | he
  · have hfp0 : v.num.natAbs % 10 ^ (-v.exp).toNat = 0 := by rw [habs]; simp
    rw [(strip_format_neg v he).1 hfp0, String.length_append,
      sign_str_zero_num v h, int_part_str_neg v he, habs, Nat.zero_div]
    decide
  · rw [strip_len_nonneg v he, sign_str_zero_num v h, int_part_str_nonneg v he, habs,
      Nat.zero_mul]
    decide

lemma sl_il_num_zero (v : Dec) (h : v.num = 0) :
    (sign_str v).length + (int_part_str v).length = 1 := by
  have habs : v.num.natAbs = 0 := by rw [h]; rfl
  rw [sign_str_zero_num v h]
  rcases lt_or_le v.exp 0 with he | he
  · rw [int_part_str_neg v he, habs, Nat.zero_div]
    decide
  · rw [int_part_str_nonneg v he, habs, Nat.zero_mul]
    decide

lemma quantize_strip_length_le (v v2 : Dec) (af : Nat) (he : v.exp < 0)
    (haf1 : 1 ≤ af)
    (haf : (sign_str v).length + (int_part_str v).length + 1 + af = MAX_DISPLAY_LEN)
    (hafk : af < (-v.exp).toNat)
    (hq : quantize_hu v af = some v2) :
    (strip_frac (format_fixed v2)).length ≤ MAX_DISPLAY_LEN := by
  have hcond : ¬ (0 ≤ v.exp + (af : Int)) := by omega
  unfold quantize_hu at hq
  rw [if_neg hcond] at hq
  simp only [] at hq
  split at hq
  · cases hq
  · cases hq
    set m := 10 ^ ((-(v.exp + (af : Int))).toNat) with hm
    set q := (v.num.natAbs + m / 2) / m with hqdef
    set L := num_digits (v.num.natAbs / 10 ^ (-v.exp).toNat) with hL
    have hL1 : 1 ≤ L := num_digits_pos _
    have hmk : (-(v.exp + (af : Int))).toNat = (-v.exp).toNat - af := by omega
    have hm10 : m = 10 ^ ((-v.exp).toNat - af) := by rw [hm, hmk]
    have hm2 : 2 ≤ m := by
      rw [hm10]
      calc (2:Nat) ≤ 10 ^ 1 := by omega
        _ ≤ 10 ^ ((-v.exp).toNat - af) := Nat.pow_le_pow_right (by omega) (by omega)
    have hip := lt_pow_num_digits (v.num.natAbs / 10 ^ (-v.exp).toNat)
    rw [← hL] at hip
    have ha : v.num.natAbs < 10 ^ L * 10 ^ (-v.exp).toNat :=
      (Nat.div_lt_iff_lt_mul (pow_pos (by omega) _)).mp hip
    have hsplitpow : 10 ^ L * 10 ^ (-v.exp).toNat = 10 ^ (L + af) * m := by
      rw [hm10, ← pow_add, ← pow_add]
      congr 1
      omega
    have hqle : q ≤ 10 ^ (L + af) := by
      rw [hqdef]
      have h1 : v.num.natAbs + m / 2 ≤ 10 ^ (L + af) * m + (m / 2 - 1) := by
        rw [hsplitpow] at ha
        omega
      calc (v.num.natAbs + m / 2) / m ≤ (10 ^ (L + af) * m + (m / 2 - 1)) / m :=
            Nat.div_le_div_right h1
        _ = (m * 10 ^ (L + af) + (m / 2 - 1)) / m := by rw [mul_comm (10 ^ (L + af)) m]
        _ = 10 ^ (L + af) + (m / 2 - 1) / m := Nat.mul_add_div (by omega) _ _
        _ = 10 ^ (L + af) := by rw [Nat.div_eq_of_lt (by omega), Nat.add_zero]
    set w : Dec := ⟨if v.num < 0 then -(q : Int) else (q : Int), -(af : Int)⟩ with hw
    have hwexp : w.exp < 0 := by rw [hw]; simp; omega
    have hwabs : w.num.natAbs = q := by
      rw [hw]
      show (if v.num < 0 then -(q : Int) else (q : Int)).natAbs = q
      split <;> simp
    have hwk : (-w.exp).toNat = af := by
      rw [hw]
      show (-(-(af : Int))).toNat = af
      omega
    have hsign2 : (sign_str w).length ≤ (sign_str v).length := by
      unfold sign_str
      rw [hw]
      show (if (if v.num < 0 then -(q : Int) else (q : Int)) < 0 then "-" else "").length
          ≤ (if v.num < 0 then "-" else "").length
      split_ifs with h1 h2 h3
      · exact le_refl _
      · decide
      · exfalso
        omega
      · exact le_refl _
    have hintv : (int_part_str v).length = L := by
      rw [int_part_str_neg v he, hL]
      rfl
    rcases Nat.lt_or_ge q (10 ^ (L + af)) with hqlt | hqge
    · have hip2 : q / 10 ^ af < 10 ^ L := by
        rw [Nat.div_lt_iff_lt_mul (pow_pos (by omega) _)]
        calc q < 10 ^ (L + af) := hqlt
          _ = 10 ^ L * 10 ^ af := by rw [pow_add]
      have hnd2 : num_digits (q / 10 ^ af) ≤ L :=
        num_digits_le_of_lt_pow L _ (by omega) hip2
      have hflen := format_fixed_neg_length w hwexp
      have hint2 : (int_part_str w).length = num_digits (q / 10 ^ af) := by
        rw [int_part_str_neg w hwexp, hwabs, hwk]
        rfl
      have hstrip := strip_frac_length_le (format_fixed w)
      rw [hflen, hint2, hwk] at hstrip
      omega
    · have hqeq : q = 10 ^ (L + af) := le_antisymm hqle hqge
      have hfp2 : w.num.natAbs % 10 ^ (-w.exp).toNat = 0 := by
        rw [hwabs, hwk, hqeq, pow_add]
        exact Nat.mul_mod_left _ _
      have hstr := (strip_format_neg w hwexp).1 hfp2
      rw [hstr, String.length_append]
      have hint2 : (int_part_str w).length = L + 1 := by
        rw [int_part_str_neg w hwexp, hwabs, hwk, hqeq]
        show num_digits (10 ^ (L + af) / 10 ^ af) = L + 1
        have hdiv : 10 ^ (L + af) / 10 ^ af = 10 ^ L := by
          rw [pow_add]
          exact Nat.mul_div_cancel _ (pow_pos (by omega) _)
        rw [hdiv]
        exact num_digits_pow L
      rw [hint2]
      omega

/-! ### C8: the theorem -/

lemma fmt_loop_overflow (fuel : Nat) (v : Dec)
    (hbig : MAX_DISPLAY_LEN < (sign_str v).length + (int_part_str v).length) :
    fmt_loop (fuel + 1) v = (OVERFLOW_MSG, true) := by
  simp only [fmt_loop]
  rw [show int_part_of (format_fixed (abs_dec v)) = int_part_str v from rfl]
  rw [if_pos hbig]

lemma fmt_loop_ret_int (fuel : Nat) (v : Dec)
    (hsmall : ¬ MAX_DISPLAY_LEN < (sign_str v).length + (int_part_str v).length)
    (hneg : (MAX_DISPLAY_LEN : Int) - (sign_str v).length - (int_part_str v).length - 1 ≤ 0) :
    fmt_loop (fuel + 1) v = (sign_str v ++ int_part_str v, false) := by
  simp only [fmt_loop]
  rw [show int_part_of (format_fixed (abs_dec v)) = int_part_str v from rfl]
  rw [if_neg hsmall, if_pos hneg]

lemma fmt_loop_ret_quant (fuel : Nat) (v v2 : Dec)
    (hsmall : ¬ MAX_DISPLAY_LEN < (sign_str v).length + (int_part_str v).length)
    (hpos : ¬ (MAX_DISPLAY_LEN : Int) - (sign_str v).length - (int_part_str v).length - 1 ≤ 0)
    (hq : quantize_hu v ((MAX_DISPLAY_LEN : Int) - (sign_str v).length
        - (int_part_str v).length - 1).toNat = some v2)
    (hfit : (strip_frac (format_fixed v2)).length ≤ MAX_DISPLAY_LEN) :
    fmt_loop (fuel + 1) v = (strip_frac (format_fixed v2), false) := by
  simp only [fmt_loop]
  rw [show int_part_of (format_fixed (abs_dec v)) = int_part_str v from rfl]
  rw [if_neg hsmall, if_neg hpos, hq]
  simp only []
  rw [if_pos hfit]

lemma format_decimal_enter_loop (v : Dec) (h0 : v.num ≠ 0)
    (hbig : ¬ (strip_frac (format_fixed v)).length ≤ MAX_DISPLAY_LEN)
    (hdot : has_dot (strip_frac (format_fixed v)) = true) :
    format_decimal v = fmt_loop 6 v := by
  unfold format_decimal
  rw [if_neg h0]
  simp only []
  rw [if_neg hbig, hdot, if_pos rfl]

lemma format_decimal_overflow_big (v : Dec)
    (hbig : MAX_DISPLAY_LEN < (sign_str v).length + (int_part_str v).length) :
    format_decimal v = (OVERFLOW_MSG, true) := by
  have hMD : MAX_DISPLAY_LEN = 32 := rfl
  have h0 : v.num ≠ 0 := by
    intro h0
    have := sl_il_num_zero v h0
    omega
  have hA := sl_il_le_strip v
  unfold format_decimal
  rw [if_neg h0]
  simp only []
  rw [if_neg (by omega : ¬ (strip_frac (format_fixed v)).length ≤ MAX_DISPLAY_LEN)]
  split
  · exact fmt_loop_overflow 5 v hbig
  · rfl

/-- C8 as amended.  First half (as claimed): for every value whose sign
plus integer-part string alone exceeds MAX_DISPLAY_LEN, the formatter
yields the overflow token and enters the error state.  Second half: for a
value whose integer part fits but whose full stripped fixed-point
rendering does not, if no fraction digit fits the formatter returns the
bare sign and integer part (at most 32 characters); if some fraction
digits fit and the round-half-up quantize to that many digits succeeds
within the 28-digit working precision, the formatter returns the stripped
rendering of the rounded value, of length at most 32, without
overflowing.  (The counterexample shows the precision proviso is needed:
when the rounded coefficient would exceed 28 digits the code raises
InvalidOperation and sets the overflow error state instead.) -/
theorem formatter_overflow_law :
    (∀ v : Dec,
       MAX_DISPLAY_LEN < (sign_str v).length + (int_part_str v).length →
       format_decimal v = (OVERFLOW_MSG, true))
    ∧ (∀ v : Dec,
       (sign_str v).length + (int_part_str v).length ≤ MAX_DISPLAY_LEN →
       MAX_DISPLAY_LEN < (strip_frac (format_fixed v)).length →
       (((MAX_DISPLAY_LEN : Int) - (sign_str v).length - (int_part_str v).length - 1 ≤ 0 →
          format_decimal v = (sign_str v ++ int_part_str v, false))
       ∧ (∀ v2 : Dec,
            0 < (MAX_DISPLAY_LEN : Int) - (sign_str v).length - (int_part_str v).length - 1 →
            quantize_hu v ((MAX_DISPLAY_LEN : Int) - (sign_str v).length
                - (int_part_str v).length - 1).toNat = some v2 →
            format_decimal v = (strip_frac (format_fixed v2), false)
            ∧ (strip_frac (format_fixed v2)).length ≤ MAX_DISPLAY_LEN))) := by
  constructor
  · exact fun v hbig => format_decimal_overflow_big v hbig
  · intro v hsl hbig
    have hMD : MAX_DISPLAY_LEN = 32 := rfl
    have h0 : v.num ≠ 0 := by
      intro h0
      have := strip_len_zero_num v h0
      omega
    have he : v.exp < 0 := by
      by_contra hc
      push_neg at hc
      have := strip_len_nonneg v hc
      omega
    have hfp : v.num.natAbs % 10 ^ (-v.exp).toNat ≠ 0 := by
      intro hfp0
      have hx := (strip_format_neg v he).1 hfp0
      rw [hx, String.length_append] at hbig
      omega
    obtain ⟨B, hBne, hBlen, hdata⟩ := (strip_format_neg v he).2 hfp
    have hdot : has_dot (strip_frac (format_fixed v)) = true := by
      unfold has_dot
      rw [List.any_eq_true]
      refine ⟨'.', ?_, by decide⟩
      rw [hdata]
      simp
    have hstriplen_le : (strip_frac (format_fixed v)).length
        ≤ (sign_str v).length + (int_part_str v).length + 1 + (-v.exp).toNat := by
      have h1 := strip_frac_length_le (format_fixed v)
      rw [format_fixed_neg_length v he] at h1
      exact h1
    have hloop : format_decimal v = fmt_loop 6 v :=
      format_decimal_enter_loop v h0 (by omega) hdot
    constructor
    · intro hneg
      rw [hloop]
      exact fmt_loop_ret_int 5 v (by omega) hneg
    · intro v2 hpos hq
      have hafk : ((MAX_DISPLAY_LEN : Int) - (sign_str v).length
          - (int_part_str v).length - 1).toNat < (-v.exp).toNat := by omega
      have haf1 : 1 ≤ ((MAX_DISPLAY_LEN : Int) - (sign_str v).length
          - (int_part_str v).length - 1).toNat := by omega
      have haf : (sign_str v).length + (int_part_str v).length + 1
          + ((MAX_DISPLAY_LEN : Int) - (sign_str v).length
              - (int_part_str v).length - 1).toNat = MAX_DISPLAY_LEN := by omega
      have hfit := quantize_strip_length_le v v2 _ he haf1 haf hafk hq
      refine ⟨?_, hfit⟩
      rw [hloop]
      exact fmt_loop_ret_quant 5 v v2 (by omega) (by omega) hq hfit

/-- Counterexample to C8 as stated.  For the value 10 to the 29th plus
0.55 the sign and integer part occupy 30 characters (within the bound of
32) and the full stripped rendering needs 33, yet the formatter does not
round to fit: the quantize of the rounding loop would need a 31-digit
coefficient, beyond the working precision of 28, so the code converts the
InvalidOperation into the overflow error state. -/
theorem formatter_overflow_law_counterexample :
    (sign_str ⟨10 ^ 31 + 55, -2⟩).length + (int_part_str ⟨10 ^ 31 + 55, -2⟩).length
        ≤ MAX_DISPLAY_LEN
    ∧ MAX_DISPLAY_LEN < (strip_frac (format_fixed ⟨10 ^ 31 + 55, -2⟩)).length
    ∧ format_decimal ⟨10 ^ 31 + 55, -2⟩ = (OVERFLOW_MSG, true) :=
  ⟨by decide, by decide, by rfl⟩

/-- Witness for the amended C8: a 34-digit integer overflows (first
half), and a value of 31 fraction digits within precision is rounded to
fit 32 characters without overflow (second half). -/
theorem formatter_overflow_law_witness :
    format_decimal ⟨10 ^ 33, 0⟩ = (OVERFLOW_MSG, true)
    ∧ format_decimal ⟨10 ^ 27 + 7, -31⟩
        = (strip_frac (format_fixed ⟨(10 : Int) ^ 26 + 1, -30⟩), false)
    ∧ (strip_frac (format_fixed (⟨(10 : Int) ^ 26 + 1, -30⟩ : Dec))).length
        ≤ MAX_DISPLAY_LEN := by
  have h1 := formatter_overflow_law.1 ⟨10 ^ 33, 0⟩ (by decide)
  have h2 := (formatter_overflow_law.2 ⟨10 ^ 27 + 7, -31⟩ (by decide) (by decide)).2
      ⟨(10 : Int) ^ 26 + 1, -30⟩ (by decide) (by rfl)
  exact ⟨h1, h2.1, h2.2⟩
